import Mathlib

/-!
Verification of the btroute route decoder and GPX builder (src/btroute.py).

The Python program is shallowly embedded: JSON/Python values become the
inductive type `Cell` (Python `bool` kept distinct from `int`, since
`isinstance(True, int)` holds and the code relies on it), Python floats are
modelled as exact rationals, and every fallible operation returns
`Except Err _` where `Err` mirrors the exception classes caught by
`main` in the program (`KeyError`, `IndexError`, `TypeError`).  Python list
indexing — including its negative-index wrap-around — is modelled exactly.
Float arithmetic is modelled at the IEEE-754 binary64 level: a float cell
carries the exact (dyadic rational) value of its double, `/` performs
correctly rounded binary64 division (`roundToDbl`), and `"%.2f"` and
`round` then round the exact value of that double half-to-even, so e.g.
`f"{500/100000:.2f}"` is `"0.01"` here as in CPython.
-/

set_option autoImplicit false

namespace Btroute

/-- Python exception classes caught by `main` (the StructureError of the spec). -/
inductive Err where
  | keyError
  | indexError
  | typeError
  deriving DecidableEq

/-- A Python/JSON value as it occurs in the Biketerra `__data.json` payload.
Floats are modelled as exact rationals; dict keys in this payload are
strings. -/
inductive Cell where
  | int : Int → Cell
  | float : Rat → Cell
  | bool : Bool → Cell
  | str : String → Cell
  | null : Cell
  | list : List Cell → Cell
  | dict : List (String × Cell) → Cell

/-- First-match lookup in a (string-keyed) dict, i.e. Python `d.get(k)` /
`d[k]` on a dict whose keys are unique. -/
def dGet : List (String × Cell) → String → Option Cell
  | [], _ => none
  | (k, v) :: rest, f => if k = f then some v else dGet rest f

/-- Python truthiness (`bool(x)`) for the modelled values. -/
def pyTruthy : Cell → Bool
  | .int n => n != 0
  | .float q => q != 0
  | .bool b => b
  | .str s => s != ""
  | .null => false
  | .list cs => !cs.isEmpty
  | .dict kvs => !kvs.isEmpty

/-- The test `isinstance(idx, int) and idx > 0` from the metadata loop.
Python `bool` is a subclass of `int`, so `True` passes (`True > 0`). -/
def isPosInt : Cell → Bool
  | .int n => decide (0 < n)
  | .bool b => b
  | _ => false

/-- Python sequence indexing on a plain list of elements: non-negative
indices address from the front, indices in `[-len, 0)` wrap around from the
back, anything else raises `IndexError`. -/
def seqIdx {α : Type} (cs : List α) (i : Int) : Except Err α :=
  if h : 0 ≤ i ∧ i < (cs.length : Int) then
    .ok (cs.get ⟨i.toNat, by omega⟩)
  else if h2 : -(cs.length : Int) ≤ i ∧ i < 0 then
    .ok (cs.get ⟨((cs.length : Int) + i).toNat, by omega⟩)
  else
    .error .indexError

/-- Is `needle` a prefix of `haystack` (over char lists)? -/
def chPfx : List Char → List Char → Bool
  | [], _ => true
  | _ :: _, [] => false
  | a :: as, b :: bs => (a == b) && chPfx as bs

/-- Substring test over char lists, i.e. Python `needle in haystack` for
strings (the empty needle is contained in everything). -/
def chSub : List Char → List Char → Bool
  | needle, [] => needle.isEmpty
  | needle, c :: rest => chPfx needle (c :: rest) || chSub needle rest

/-- Python subscription `container[index]`:
lists and strings index (bools count as ints 0/1; other index types raise
`TypeError`), dicts look up string keys (missing key or non-string hashable
key raises `KeyError`, unhashable index raises `TypeError`), and any other
container raises `TypeError`. -/
def pyGetItem : Cell → Cell → Except Err Cell
  | .list cs, .int i => seqIdx cs i
  | .list cs, .bool b => seqIdx cs (if b then 1 else 0)
  | .list _, _ => .error .typeError
  | .str s, .int i => (seqIdx s.toList i).map (fun c => .str (String.singleton c))
  | .str s, .bool b =>
      (seqIdx s.toList (if b then 1 else 0)).map (fun c => .str (String.singleton c))
  | .str _, _ => .error .typeError
  | .dict kvs, .str k =>
      match dGet kvs k with
      | some v => .ok v
      | none => .error .keyError
  | .dict _, .list _ => .error .typeError
  | .dict _, .dict _ => .error .typeError
  | .dict _, _ => .error .keyError
  | _, _ => .error .typeError

/-- The function `deref(data, index)` from src/btroute.py: `return data[index]`. -/
def deref (data index : Cell) : Except Err Cell :=
  pyGetItem data index

/-- Python membership test `field in container` for a string `field`:
dict key test, list element test (string equality only — a string never
equals a non-string), substring test on strings; `TypeError` otherwise. -/
def pyContains : Cell → String → Except Err Bool
  | .dict kvs, f => .ok (kvs.any (fun kv => kv.1 == f))
  | .list cs, f =>
      .ok (cs.any (fun c => match c with | .str s => s == f | _ => false))
  | .str s, f => .ok (chSub f.toList s.toList)
  | _, _ => .error .typeError

/-- The recognized metadata field keys, in the order the source lists them. -/
def fields : List String :=
  ["id", "title", "distance", "elevation",
   "geo_city", "geo_county", "geo_state", "geo_country"]

/-- One iteration of the metadata loop: `if field in route_meta_struct`,
read the raw value, and only when it is an int (or bool) `> 0` dereference
it and record the field. -/
def metaStep (routeData routeMetaStruct : Cell)
    (acc : List (String × Cell)) (field : String) :
    Except Err (List (String × Cell)) := do
  let present ← pyContains routeMetaStruct field
  if present then
    let idx ← pyGetItem routeMetaStruct (.str field)
    if isPosInt idx then
      let v ← deref routeData idx
      pure (acc ++ [(field, v)])
    else
      pure acc
  else
    pure acc

/-- The metadata loop over the recognized field keys, threading the
accumulated metadata dict (Python dicts preserve insertion order). -/
def metaLoop (routeData routeMetaStruct : Cell) :
    List (String × Cell) → List String → Except Err (List (String × Cell))
  | acc, [] => pure acc
  | acc, f :: fs => do
      let acc2 ← metaStep routeData routeMetaStruct acc f
      metaLoop routeData routeMetaStruct acc2 fs

/-- The whole metadata extraction (lines 47–56 of src/btroute.py). -/
def buildMetadata (routeData routeMetaStruct : Cell) :
    Except Err (List (String × Cell)) :=
  metaLoop routeData routeMetaStruct [] fields

/-- Python `str()` of a cell as used in the f-string `f"Route {...}"`.
Integers, booleans, strings and `None` are rendered exactly; the float,
list and dict renderings (not exercised on the name path, where ids are
integers) are schematic. -/
def pyStr : Cell → String
  | .int n => toString n
  | .float q => toString q
  | .bool b => if b then "True" else "False"
  | .str s => s
  | .null => "None"
  | .list _ => "[...]"
  | .dict _ => "\x7b...\x7d"

/-- Line 58 of the source: `metadata.get("title") or "Route ..."` with the
id (or the string Unknown) interpolated via `str()`.
`x or y` yields `x` when `x` is truthy (whatever its type), else `y`. -/
def routeName (metadata : List (String × Cell)) : Cell :=
  let t := (dGet metadata "title").getD .null
  if pyTruthy t then t
  else .str ("Route " ++ pyStr ((dGet metadata "id").getD (.str "Unknown")))

/-- One decoded track point (lat/lng/ele cells as found in the store). -/
structure RoutePoint where
  lat : Cell
  lng : Cell
  ele : Cell

/-- Lines 65–71: resolve one entry of the point-index list.  The reference
list is indexed at 0, 1, 2 (a shorter list raises `IndexError`; extra
elements are never touched), and each reference is dereferenced once. -/
def extractPoint (routeData : Cell) (pointIdx : Cell) : Except Err RoutePoint := do
  let pointRefs ← deref routeData pointIdx
  let r0 ← pyGetItem pointRefs (.int 0)
  let lat ← deref routeData r0
  let r1 ← pyGetItem pointRefs (.int 1)
  let lng ← deref routeData r1
  let r2 ← pyGetItem pointRefs (.int 2)
  let ele ← deref routeData r2
  pure { lat := lat, lng := lng, ele := ele }

/-- The `for point_idx in point_indices` loop: points are produced in
input order and any failure aborts the whole extraction. -/
def extractPoints (routeData : Cell) : List Cell → Except Err (List RoutePoint)
  | [] => pure []
  | idx :: rest => do
      let p ← extractPoint routeData idx
      let ps ← extractPoints routeData rest
      pure (p :: ps)

/-- Python `for x in c`: lists yield elements, strings yield 1-character
strings, dicts yield their keys; other values raise `TypeError`. -/
def pyIter : Cell → Except Err (List Cell)
  | .list cs => pure cs
  | .str s => pure (s.toList.map (fun c => .str (String.singleton c)))
  | .dict kvs => pure (kvs.map (fun kv => .str kv.1))
  | _ => .error .typeError

/-- Lines 39–40 prefix: `route_data = data["nodes"][2]["data"]`. -/
def locateRouteData (data : Cell) : Except Err Cell := do
  let nodes ← pyGetItem data (.str "nodes")
  let node2 ← pyGetItem nodes (.int 2)
  pyGetItem node2 (.str "data")

/-- The decoder result: ordered points, metadata dict, derived name. -/
structure RouteInfo where
  points : List RoutePoint
  metadata : List (String × Cell)
  name : Cell

/-- The decoder `extract_route_info(data)` (lines 32–73), with the evaluation
order of the source: locate the route record, read the two structural pointers, build the
metadata, derive the name, then resolve the point list. -/
def extract_route_info (data : Cell) : Except Err RouteInfo := do
  let routeData ← locateRouteData data
  let routeInfoCell ← pyGetItem routeData (.int 0)
  let latLngIdx ← pyGetItem routeInfoCell (.str "latLngData")
  let routeMetaIdx ← pyGetItem routeInfoCell (.str "route")
  let routeMetaStruct ← deref routeData routeMetaIdx
  let metadata ← buildMetadata routeData routeMetaStruct
  let name := routeName metadata
  let pointIndicesCell ← deref routeData latLngIdx
  let pointIndices ← pyIter pointIndicesCell
  let points ← extractPoints routeData pointIndices
  pure { points := points, metadata := metadata, name := name }

/-- A `<trkpt>`: latitude/longitude/elevation as passed to the GPX library. -/
structure GPXTrackPoint where
  latitude : Cell
  longitude : Cell
  elevation : Cell

/-- A `<trkseg>`. -/
structure GPXTrackSegment where
  points : List GPXTrackPoint

/-- A `<trk>`. -/
structure GPXTrack where
  name : Cell
  segments : List GPXTrackSegment

/-- The built GPX document.  The creation timestamp (`datetime.now`, a wall
clock read) is outside the pure model and not represented. -/
structure GPX where
  creator : String
  name : Cell
  description : String
  tracks : List GPXTrack

/-- Round half to even of the exact value `n / d` (`d > 0`), the final
decimal-rounding step shared by Python `round` and `"%.2f"` formatting
(both operate on the exact value of an already-rounded binary64). -/
def rheDiv (n d : Int) : Int :=
  let q := n.fdiv d
  let r := n - q * d
  if 2 * r < d then q
  else if d < 2 * r then q + 1
  else if q % 2 = 0 then q else q + 1

/-- Round half to even of `a / b` over naturals (`b > 0`). -/
def rheNat (a b : Nat) : Nat :=
  let q := a / b
  let r := a % b
  if 2 * r < b then q
  else if b < 2 * r then q + 1
  else if q % 2 = 0 then q else q + 1

/-- Fuel-driven binary digit count (the fuel `n` always suffices since a
number has at most `n` binary digits). -/
def bitlenAux : Nat → Nat → Nat
  | 0, _ => 0
  | fuel+1, n => if n = 0 then 0 else bitlenAux fuel (n / 2) + 1

/-- Number of binary digits of `n` (`0` for `0`). -/
def bitlen (n : Nat) : Nat := bitlenAux n n

/-- Floor of the base-2 logarithm of `a / b` (`a, b ≥ 1`), computed from
the digit-count difference with a one-step correction. -/
def ilog2R (a b : Nat) : Int :=
  let E0 : Int := (bitlen a : Int) - (bitlen b : Int)
  if b * 2 ^ E0.toNat ≤ a * 2 ^ (-E0).toNat then E0 else E0 - 1

/-- An IEEE-754 binary64 value: `finite m e` has the exact value `m * 2^e`
(`|m| ≤ 2^53`, `e ≥ -1074`); `inf s` is a signed infinity.  Signed zeros
and NaN are not distinguished (they cannot reach the formatting paths the
claims quantify over). -/
inductive Dbl where
  | finite : Int → Int → Dbl
  | inf : Bool → Dbl

/-- The binary64 double nearest to `n / d` with ties to even: the result
of CPython true division on ints (and, with exact dyadic operands, on
floats), covering normal and subnormal results.  A quotient whose rounded
magnitude reaches `2^1024` (where CPython int division raises an uncaught
`OverflowError` instead of producing a float) is mapped to `inf`; that
region is excluded by hypothesis wherever a theorem relies on this
function.  `d = 0` (`ZeroDivisionError` in Python, unreachable here since
every denominator is built positive) is mapped to zero. -/
def roundToDbl (n d : Int) : Dbl :=
  if n = 0 ∨ d = 0 then .finite 0 0
  else
    let s := decide (n < 0) != decide (d < 0)
    let a := n.natAbs
    let b := d.natAbs
    let E := ilog2R a b
    let q : Int := max (E - 52) (-1074)
    let m : Nat :=
      if 0 ≤ q then rheNat a (b * 2 ^ q.toNat)
      else rheNat (a * 2 ^ (-q).toNat) b
    if 971 < q ∨ (q = 971 ∧ m = 9007199254740992) then .inf s
    else .finite (if s then -(m : Int) else (m : Int)) q

/-- Two decimal digits with a leading zero. -/
def twoDigits (n : Nat) : String :=
  if n < 10 then "0" ++ toString n else toString n

/-- Python `f"{x:.2f}"` of a double: the exact (dyadic) value of the
double is rounded to hundredths with ties to even, as C `printf` does; a
negative value keeps its sign even when it rounds to `-0.00`. -/
def fmtDbl2f : Dbl → String
  | .inf s => if s then "-inf" else "inf"
  | .finite m e =>
    let sign := if m < 0 then "-" else ""
    let ma : Int := (m.natAbs : Int)
    let H : Int :=
      if 0 ≤ e then ma * 100 * 2 ^ e.toNat
      else rheDiv (ma * 100) (2 ^ (-e).toNat)
    let h := H.toNat
    sign ++ toString (h / 100) ++ "." ++ twoDigits (h % 100)

/-- Python `round(x)` of a double: the exact value of the double rounded
to an integer with ties to even. -/
def pyRoundDbl : Dbl → Int
  | .inf _ => 0
  | .finite m e =>
    if 0 ≤ e then m * 2 ^ e.toNat
    else rheDiv m (2 ^ (-e).toNat)

/-- Python `f"{n/d:.2f}"`: the quotient is first rounded to the nearest
binary64 (that is what `/` returns), then that double is formatted. -/
def fmt2f (n d : Int) : String := fmtDbl2f (roundToDbl n d)

/-- Python `round(n/d)`: the quotient is first rounded to the nearest
binary64, then that double is rounded to an integer half-to-even. -/
def pyRound (n d : Int) : Int := pyRoundDbl (roundToDbl n d)

/-- The exact value of a Python number as numerator / positive
denominator: ints and bools (0/1) are integral; a float cell carries the
exact (dyadic rational) value of its double.  `/` on any other operand
raises `TypeError`. -/
def cellToNum : Cell → Except Err (Int × Int)
  | .int n => pure (n, 1)
  | .float q => pure (q.num, (q.den : Int))
  | .bool b => pure (if b then 1 else 0, 1)
  | _ => .error .typeError

/-- Python `str.join` over a list of cells: every element must itself be a
string, otherwise `TypeError`. -/
def cellsAsStrs : List Cell → Except Err (List String)
  | [] => pure []
  | .str s :: rest => (cellsAsStrs rest).map (fun ss => s :: ss)
  | _ :: _ => .error .typeError

/-- Python `sep.join(filtered parts)` from the location block. -/
def joinCells (sep : String) (cs : List Cell) : Except Err String :=
  (cellsAsStrs cs).map (String.intercalate sep)

/-- Lines 83–91: the `Location: ...` description part (present only when
`metadata.get("geo_city")` is truthy; falsy components are filtered out). -/
def locPart (metadata : List (String × Cell)) : Except Err (List String) :=
  if pyTruthy ((dGet metadata "geo_city").getD .null) then do
    let locationParts :=
      [(dGet metadata "geo_city").getD .null,
       (dGet metadata "geo_state").getD .null,
       (dGet metadata "geo_country").getD .null]
    let location ← joinCells ", " (locationParts.filter pyTruthy)
    if location ≠ "" then pure ["Location: " ++ location] else pure []
  else pure []

/-- Lines 93–95: the `Distance: ... km` part (centimeters / 100000,
formatted `.2f`), present only when `metadata.get("distance")` is truthy. -/
def distPart (metadata : List (String × Cell)) : Except Err (List String) :=
  if pyTruthy ((dGet metadata "distance").getD .null) then do
    let x ← cellToNum ((dGet metadata "distance").getD .null)
    pure ["Distance: " ++ fmt2f x.1 (x.2 * 100000) ++ " km"]
  else pure []

/-- Lines 97–99: the `Elevation gain: ... m` part (centimeters / 100,
`round`ed), present only when `metadata.get("elevation")` is truthy. -/
def elePart (metadata : List (String × Cell)) : Except Err (List String) :=
  if pyTruthy ((dGet metadata "elevation").getD .null) then do
    let x ← cellToNum ((dGet metadata "elevation").getD .null)
    pure ["Elevation gain: " ++ toString (pyRound x.1 (x.2 * 100)) ++ " m"]
  else pure []

/-- A decoded point as a GPX track point (lines 119–123). -/
def toTrackPoint (p : RoutePoint) : GPXTrackPoint :=
  { latitude := p.lat, longitude := p.lng, elevation := p.ele }

/-- The builder `build_gpx(points, route_name, metadata)` (lines 76–126): description
parts assembled in source order and joined with `"; "`, one track
with the route name holding one segment with the points in input order. -/
def build_gpx (points : List RoutePoint) (route_name : Cell)
    (metadata : List (String × Cell)) : Except Err GPX := do
  let a ← locPart metadata
  let b ← distPart metadata
  let c ← elePart metadata
  let description := String.intercalate "; " (a ++ b ++ c)
  pure
    { creator := "Biketerra GPX Exporter"
      name := route_name
      description := description
      tracks := [{ name := route_name
                   segments := [{ points := points.map toTrackPoint }] }] }

/-- The outcome of `fetch_route_data`: a parsed JSON document, an HTTP
error (`requests.HTTPError`) or a transport error (`RequestException`). -/
inductive FetchOutcome where
  | success : Cell → FetchOutcome
  | httpError : FetchOutcome
  | requestError : FetchOutcome

/-- The observable result of one run of `main`: either the output file is
written (with the built document) or a diagnostic goes to stderr and the
process exits with status 1.  Messages elide the appended `str(e)`. -/
inductive RunResult where
  | written : String → GPX → RunResult
  | failure : String → RunResult

/-- The pipeline of `main` (lines 153–183): fetch, decode, reject an empty point
list, build, and only then open and write the output file; every caught
error exits with status 1 before the file is touched. -/
def runMain (fetch : FetchOutcome) (outputFile : String) : RunResult :=
  match fetch with
  | .httpError => .failure "Error fetching route"
  | .requestError => .failure "Network error"
  | .success data =>
    match extract_route_info data with
    | .error _ => .failure "Error parsing route data"
    | .ok info =>
      if info.points.isEmpty then
        .failure "Error: No track points found in route data"
      else
        match build_gpx info.points info.name info.metadata with
        | .error _ => .failure "Error parsing route data"
        | .ok gpx => .written outputFile gpx

/-! ### Concrete stores used as witnesses and counterexamples -/

/-- A well-formed flattened store: route record at 0, point-index list at 1,
metadata record at 2, two points, full metadata. -/
def exRouteData : List Cell :=
  [ .dict [("latLngData", .int 1), ("route", .int 2)],
    .list [.int 3, .int 4],
    .dict [("id", .int 5), ("title", .int 6), ("distance", .int 7),
           ("elevation", .int 8), ("geo_city", .int 9)],
    .list [.int 10, .int 11, .int 12],
    .list [.int 13, .int 14, .int 15],
    .int 8771, .str "Test Loop", .int 500000, .int 5000, .str "Boulder",
    .int 40, .int (-105), .int 1600,
    .int 41, .int (-106), .int 1620 ]

/-- The surrounding document: `data["nodes"][2]["data"]` is `exRouteData`. -/
def exData : Cell :=
  .dict [("nodes", .list [.null, .null, .dict [("data", .list exRouteData)]])]

/-- The decode of `exData`. -/
def exInfo : RouteInfo :=
  { points := [{ lat := .int 40, lng := .int (-105), ele := .int 1600 },
               { lat := .int 41, lng := .int (-106), ele := .int 1620 }]
    metadata := [("id", .int 8771), ("title", .str "Test Loop"),
                 ("distance", .int 500000), ("elevation", .int 5000),
                 ("geo_city", .str "Boulder")]
    name := .str "Test Loop" }

/-- The GPX document built from `exInfo`. -/
def exGpx : GPX :=
  { creator := "Biketerra GPX Exporter"
    name := .str "Test Loop"
    description := "Location: Boulder; Distance: 5.00 km; Elevation gain: 50 m"
    tracks := [{ name := .str "Test Loop"
                 segments := [{ points :=
                   [{ latitude := .int 40, longitude := .int (-105), elevation := .int 1600 },
                    { latitude := .int 41, longitude := .int (-106), elevation := .int 1620 }] }] }] }

/-- A store whose metadata record stores `distance` as the literal `0` and
`title` as a pointer. -/
def cexRouteData1 : List Cell :=
  [ .dict [("latLngData", .int 1), ("route", .int 2)],
    .list [.int 3],
    .dict [("distance", .int 0), ("title", .int 4)],
    .list [.int 5, .int 6, .int 7],
    .str "Zero Loop",
    .int 40, .int (-105), .int 1600 ]

/-- Document around `cexRouteData1`. -/
def cexData1 : Cell :=
  .dict [("nodes", .list [.null, .null, .dict [("data", .list cexRouteData1)]])]

/-- A store whose single point record resolves to a 4-element reference
list (one more than the expected 3). -/
def cexRouteData3 : List Cell :=
  [ .dict [("latLngData", .int 1), ("route", .int 2)],
    .list [.int 3],
    .dict [],
    .list [.int 4, .int 5, .int 6, .int 0],
    .int 40, .int (-105), .int 1600 ]

/-- Document around `cexRouteData3`. -/
def cexData3 : Cell :=
  .dict [("nodes", .list [.null, .null, .dict [("data", .list cexRouteData3)]])]

/-- A store that decodes successfully to zero points. -/
def emptyRouteData : List Cell :=
  [ .dict [("latLngData", .int 1), ("route", .int 2)],
    .list [],
    .dict [] ]

/-- Document around `emptyRouteData`. -/
def emptyData : Cell :=
  .dict [("nodes", .list [.null, .null, .dict [("data", .list emptyRouteData)]])]

/-- Metadata exercising the description examples of the spec (distance 250000,
elevation 12345). -/
def exMd6 : List (String × Cell) :=
  [("geo_city", .str "Boulder"), ("distance", .int 250000), ("elevation", .int 12345)]

/-- The GPX document built from `exMd6` with no points. -/
def exGpx6 : GPX :=
  { creator := "Biketerra GPX Exporter"
    name := .str "T"
    description := "Location: Boulder; Distance: 2.50 km; Elevation gain: 123 m"
    tracks := [{ name := .str "T", segments := [{ points := [] }] }] }

/-! ### Helper lemmas about the embedded operations -/

theorem seqIdx_in_range {α : Type} (cs : List α) (i : Int)
    (h : 0 ≤ i ∧ i < (cs.length : Int)) :
    seqIdx cs i = .ok (cs.get ⟨i.toNat, by omega⟩) := by
  simp only [seqIdx]
  rw [dif_pos h]

theorem seqIdx_wrap {α : Type} (cs : List α) (i : Int)
    (h : -(cs.length : Int) ≤ i ∧ i < 0) :
    seqIdx cs i = .ok (cs.get ⟨((cs.length : Int) + i).toNat, by omega⟩) := by
  simp only [seqIdx]
  rw [dif_neg (by omega), dif_pos h]

theorem seqIdx_oob {α : Type} (cs : List α) (i : Int)
    (h : i < -(cs.length : Int) ∨ (cs.length : Int) ≤ i) :
    seqIdx cs i = .error .indexError := by
  simp only [seqIdx]
  rw [dif_neg (by omega), dif_neg (by omega)]

theorem seqIdx_zero {α : Type} (a : α) (l : List α) :
    seqIdx (a :: l) 0 = .ok a := by
  rw [seqIdx_in_range (a :: l) 0 (by simp)]
  rfl

theorem seqIdx_one {α : Type} (a b : α) (l : List α) :
    seqIdx (a :: b :: l) 1 = .ok b := by
  rw [seqIdx_in_range (a :: b :: l) 1 (by simp)]
  rfl

theorem seqIdx_two {α : Type} (a b c : α) (l : List α) :
    seqIdx (a :: b :: c :: l) 2 = .ok c := by
  rw [seqIdx_in_range (a :: b :: c :: l) 2 (by simp ; omega)]
  rfl

@[simp] theorem ok_bind {α β : Type} (a : α) (f : α → Except Err β) :
    (Except.ok a >>= f) = f a := rfl

@[simp] theorem error_bind {α β : Type} (e : Err) (f : α → Except Err β) :
    ((Except.error e : Except Err α) >>= f) = .error e := rfl

theorem dGet_append_of_ne (acc : List (String × Cell)) (f g : String) (v : Cell)
    (h : g ≠ f) : dGet (acc ++ [(f, v)]) g = dGet acc g := by
  induction acc with
  | nil =>
    simp [dGet]
    exact fun h2 => h h2.symm
  | cons kv rest ih =>
    obtain ⟨k, w⟩ := kv
    by_cases hk : k = g <;> simp [dGet, hk, ih]

theorem dGet_append_self (acc : List (String × Cell)) (f : String) (v : Cell)
    (h : dGet acc f = none) : dGet (acc ++ [(f, v)]) f = some v := by
  induction acc with
  | nil => simp [dGet]
  | cons kv rest ih =>
    obtain ⟨k, w⟩ := kv
    by_cases hk : k = f
    · simp [dGet, hk] at h
    · simp [dGet, hk] at h ⊢
      exact ih h

theorem any_key_iff (kvs : List (String × Cell)) (f : String) :
    (kvs.any (fun kv => kv.1 == f)) = true ↔ ∃ c, dGet kvs f = some c := by
  induction kvs with
  | nil => simp [dGet]
  | cons kv rest ih =>
    obtain ⟨k, w⟩ := kv
    by_cases hk : k = f <;> simp [dGet, hk, ih]

@[simp] theorem pure_eq_ok {α : Type} (a : α) :
    (pure a : Except Err α) = .ok a := rfl

/-- What one metadata-loop iteration does on a dict record: a missing key
or a non-positive raw value leaves the accumulator unchanged, a positive
int (or `True`) raw value appends the dereferenced cell. -/
theorem metaStep_dict (rd : Cell) (kvs acc acc2 : List (String × Cell)) (f : String)
    (h : metaStep rd (.dict kvs) acc f = .ok acc2) :
    (dGet kvs f = none → acc2 = acc) ∧
    (∀ raw, dGet kvs f = some raw →
      (isPosInt raw = true → ∃ v, deref rd raw = .ok v ∧ acc2 = acc ++ [(f, v)]) ∧
      (isPosInt raw = false → acc2 = acc)) := by
  constructor
  · intro hnone
    have hany : (kvs.any (fun kv => kv.1 == f)) = false := by
      rw [Bool.eq_false_iff]
      intro hc
      obtain ⟨c, hc2⟩ := (any_key_iff kvs f).mp hc
      rw [hnone] at hc2
      exact Option.noConfusion hc2
    simp [metaStep, pyContains, hany] at h
    exact h.symm
  · intro raw hraw
    have hany : (kvs.any (fun kv => kv.1 == f)) = true :=
      (any_key_iff kvs f).mpr ⟨raw, hraw⟩
    simp only [metaStep, pyContains, ok_bind, hany, if_true, pyGetItem, hraw] at h
    constructor
    · intro hpos
      simp only [hpos, if_true] at h
      cases hd : deref rd raw with
      | error e => rw [hd] at h ; simp at h
      | ok v =>
        rw [hd] at h
        simp only [ok_bind, pure_eq_ok, Except.ok.injEq] at h
        exact ⟨v, rfl, h.symm⟩
    · intro hpos
      rw [hpos] at h
      simp at h
      exact h.symm

/-- A metadata-loop step never touches keys other than its own field. -/
theorem metaStep_preserve (rd : Cell) (kvs acc acc2 : List (String × Cell))
    (f g : String) (h : metaStep rd (.dict kvs) acc f = .ok acc2) (hne : g ≠ f) :
    dGet acc2 g = dGet acc g := by
  obtain ⟨h1, h2⟩ := metaStep_dict rd kvs acc acc2 f h
  cases hraw : dGet kvs f with
  | none => rw [h1 hraw]
  | some raw =>
    cases hpos : isPosInt raw with
    | false => rw [(h2 raw hraw).2 hpos]
    | true =>
      obtain ⟨v, _, hv⟩ := (h2 raw hraw).1 hpos
      rw [hv, dGet_append_of_ne acc f g v hne]

/-- The metadata loop never touches keys outside its field list. -/
theorem metaLoop_preserve (rd : Cell) (kvs : List (String × Cell)) :
    ∀ (fs : List String) (acc md : List (String × Cell)) (g : String),
      metaLoop rd (.dict kvs) acc fs = .ok md → g ∉ fs → dGet md g = dGet acc g := by
  intro fs
  induction fs with
  | nil =>
    intro acc md g h _
    simp only [metaLoop, pure_eq_ok, Except.ok.injEq] at h
    rw [h]
  | cons f rest ih =>
    intro acc md g h hg
    simp only [metaLoop] at h
    cases hstep : metaStep rd (.dict kvs) acc f with
    | error e => rw [hstep] at h ; simp at h
    | ok acc2 =>
      rw [hstep] at h
      simp only [ok_bind] at h
      have hg1 : g ≠ f := fun he => hg (by rw [he] ; exact List.mem_cons_self f rest)
      have hg2 : g ∉ rest := fun he => hg (List.mem_cons_of_mem f he)
      rw [ih acc2 md g h hg2, metaStep_preserve rd kvs acc acc2 f g hstep hg1]

/-- The fate of one recognized field through the metadata loop (over a dict
record): absent key or non-positive raw value ⇒ absent from the result;
positive int (or `True`) raw value ⇒ mapped to the dereferenced cell. -/
theorem metaLoop_mem_spec (rd : Cell) (kvs : List (String × Cell)) :
    ∀ (fs : List String) (acc md : List (String × Cell)) (f : String),
      f ∈ fs → fs.Nodup → dGet acc f = none →
      metaLoop rd (.dict kvs) acc fs = .ok md →
      (dGet kvs f = none → dGet md f = none) ∧
      (∀ raw, dGet kvs f = some raw →
        (isPosInt raw = true → ∃ v, deref rd raw = .ok v ∧ dGet md f = some v) ∧
        (isPosInt raw = false → dGet md f = none)) := by
  intro fs
  induction fs with
  | nil =>
    intro acc md f hf
    exact absurd hf (List.not_mem_nil f)
  | cons g rest ih =>
    intro acc md f hf hnd hacc h
    simp only [metaLoop] at h
    cases hstep : metaStep rd (.dict kvs) acc g with
    | error e => rw [hstep] at h ; simp at h
    | ok acc2 =>
      rw [hstep] at h
      simp only [ok_bind] at h
      rcases List.mem_cons.mp hf with he | hrest
      · subst he
        have hnotin : f ∉ rest := (List.nodup_cons.mp hnd).1
        have hmd : dGet md f = dGet acc2 f :=
          metaLoop_preserve rd kvs rest acc2 md f h hnotin
        obtain ⟨h1, h2⟩ := metaStep_dict rd kvs acc acc2 f hstep
        constructor
        · intro hnone
          rw [hmd, h1 hnone, hacc]
        · intro raw hraw
          constructor
          · intro hpos
            obtain ⟨v, hv1, hv2⟩ := (h2 raw hraw).1 hpos
            refine ⟨v, hv1, ?_⟩
            rw [hmd, hv2, dGet_append_self acc f v hacc]
          · intro hpos
            rw [hmd, (h2 raw hraw).2 hpos, hacc]
      · have hgf : f ≠ g := by
          intro he
          rw [he] at hrest
          exact (List.nodup_cons.mp hnd).1 hrest
        have hacc2 : dGet acc2 f = none := by
          rw [metaStep_preserve rd kvs acc acc2 g f hstep hgf, hacc]
        exact ih acc2 md f hrest (List.nodup_cons.mp hnd).2 hacc2 h

/-- Successful point-list resolution: one output point per index-list
entry, in order, each the result of `extractPoint` on the corresponding
entry; and no entry is skipped. -/
theorem extractPoints_ok_spec (rd : Cell) :
    ∀ (pis : List Cell) (pts : List RoutePoint),
      extractPoints rd pis = .ok pts →
      pts.length = pis.length ∧
      (∀ (n : Nat) (pi : Cell), pis[n]? = some pi →
         ∃ p, pts[n]? = some p ∧ extractPoint rd pi = .ok p) ∧
      (∀ pi ∈ pis, ∃ p, extractPoint rd pi = .ok p) := by
  intro pis
  induction pis with
  | nil =>
    intro pts h
    simp only [extractPoints, pure_eq_ok, Except.ok.injEq] at h
    subst h
    refine ⟨rfl, ?_, ?_⟩
    · intro n pi hn
      simp at hn
    · intro pi hpi
      simp at hpi
  | cons i rest ih =>
    intro pts h
    simp only [extractPoints] at h
    cases hp : extractPoint rd i with
    | error e => rw [hp] at h ; simp at h
    | ok p =>
      rw [hp] at h
      simp only [ok_bind] at h
      cases hps : extractPoints rd rest with
      | error e => rw [hps] at h ; simp at h
      | ok ps =>
        rw [hps] at h
        simp only [ok_bind, pure_eq_ok, Except.ok.injEq] at h
        subst h
        obtain ⟨ih1, ih2, ih3⟩ := ih ps hps
        refine ⟨by simp [ih1], ?_, ?_⟩
        · intro n pi hn
          cases n with
          | zero =>
            simp only [List.getElem?_cons_zero, Option.some.injEq] at hn
            subst hn
            exact ⟨p, by simp, hp⟩
          | succ m =>
            simp only [List.getElem?_cons_succ] at hn ⊢
            exact ih2 m pi hn
        · intro pi hpi
          rcases List.mem_cons.mp hpi with he | hm
          · subst he
            exact ⟨p, hp⟩
          · exact ih3 pi hm

/-- A successful `build_gpx` call fully determines the document: creator
label, name, description assembled from the three (successful) parts, and
a single track holding a single segment with the points in order. -/
theorem build_gpx_parts (pts : List RoutePoint) (nm : Cell)
    (md : List (String × Cell)) (g : GPX)
    (h : build_gpx pts nm md = .ok g) :
    ∃ L D E, locPart md = .ok L ∧ distPart md = .ok D ∧ elePart md = .ok E ∧
      g = { creator := "Biketerra GPX Exporter"
            name := nm
            description := String.intercalate "; " (L ++ D ++ E)
            tracks := [{ name := nm
                         segments := [{ points := pts.map toTrackPoint }] }] } := by
  simp only [build_gpx] at h
  cases hL : locPart md with
  | error e => rw [hL] at h ; simp at h
  | ok L =>
    rw [hL] at h
    simp only [ok_bind] at h
    cases hD : distPart md with
    | error e => rw [hD] at h ; simp at h
    | ok D =>
      rw [hD] at h
      simp only [ok_bind] at h
      cases hE : elePart md with
      | error e => rw [hE] at h ; simp at h
      | ok E =>
        rw [hE] at h
        simp only [ok_bind, pure_eq_ok, Except.ok.injEq] at h
        exact ⟨L, D, E, rfl, rfl, rfl, h.symm⟩

theorem locPart_none (md : List (String × Cell)) (h : dGet md "geo_city" = none) :
    locPart md = .ok [] := by
  simp [locPart, h, pyTruthy]

theorem locPart_only_if (md : List (String × Cell)) (L : List String)
    (h : locPart md = .ok L) (hne : L ≠ []) :
    ∃ c, dGet md "geo_city" = some c ∧ pyTruthy c = true := by
  cases hc : dGet md "geo_city" with
  | none =>
    rw [locPart_none md hc] at h
    injection h with h
    exact absurd h.symm hne
  | some c =>
    refine ⟨c, rfl, ?_⟩
    cases ht : pyTruthy c with
    | true => rfl
    | false =>
      rw [locPart, hc] at h
      simp only [Option.getD_some, ht, Bool.false_eq_true, if_false] at h
      injection h with h
      exact absurd h.symm hne

theorem distPart_none (md : List (String × Cell)) (h : dGet md "distance" = none) :
    distPart md = .ok [] := by
  simp [distPart, h, pyTruthy]

theorem distPart_int (md : List (String × Cell)) (d : Int)
    (h : dGet md "distance" = some (.int d)) (hd : d ≠ 0) :
    distPart md = .ok ["Distance: " ++ fmt2f d 100000 ++ " km"] := by
  have ht : pyTruthy (Cell.int d) = true := by simp [pyTruthy, hd]
  rw [distPart, h]
  simp only [Option.getD_some, ht, if_true, cellToNum, pure_eq_ok, ok_bind, one_mul]

theorem distPart_only_if (md : List (String × Cell)) (D : List String)
    (h : distPart md = .ok D) (hne : D ≠ []) :
    ∃ c, dGet md "distance" = some c ∧ pyTruthy c = true := by
  cases hc : dGet md "distance" with
  | none =>
    rw [distPart_none md hc] at h
    injection h with h
    exact absurd h.symm hne
  | some c =>
    refine ⟨c, rfl, ?_⟩
    cases ht : pyTruthy c with
    | true => rfl
    | false =>
      rw [distPart, hc] at h
      simp only [Option.getD_some, ht, Bool.false_eq_true, if_false] at h
      injection h with h
      exact absurd h.symm hne

theorem elePart_none (md : List (String × Cell)) (h : dGet md "elevation" = none) :
    elePart md = .ok [] := by
  simp [elePart, h, pyTruthy]

theorem elePart_int (md : List (String × Cell)) (e : Int)
    (h : dGet md "elevation" = some (.int e)) (he : e ≠ 0) :
    elePart md = .ok ["Elevation gain: " ++ toString (pyRound e 100) ++ " m"] := by
  have ht : pyTruthy (Cell.int e) = true := by simp [pyTruthy, he]
  rw [elePart, h]
  simp only [Option.getD_some, ht, if_true, cellToNum, pure_eq_ok, ok_bind, one_mul]

theorem elePart_only_if (md : List (String × Cell)) (E : List String)
    (h : elePart md = .ok E) (hne : E ≠ []) :
    ∃ c, dGet md "elevation" = some c ∧ pyTruthy c = true := by
  cases hc : dGet md "elevation" with
  | none =>
    rw [elePart_none md hc] at h
    injection h with h
    exact absurd h.symm hne
  | some c =>
    refine ⟨c, rfl, ?_⟩
    cases ht : pyTruthy c with
    | true => rfl
    | false =>
      rw [elePart, hc] at h
      simp only [Option.getD_some, ht, Bool.false_eq_true, if_false] at h
      injection h with h
      exact absurd h.symm hne

/-! ### Claim theorems -/

/-- C2. (amended).  `resolve(store, i)` returns `store[i]` exactly when
`0 ≤ i < len(store)`; for `i ≥ len(store)` or `i < -len(store)` it fails
with a StructureError (`IndexError`) and never returns a default; but for
`-len(store) ≤ i < 0` it follows the Python negative-index semantics and
returns `store[len(store) + i]` instead of failing. -/
theorem resolve_spec (store : List Cell) (i : Int) :
    (∀ h : 0 ≤ i ∧ i < (store.length : Int),
       deref (.list store) (.int i) = .ok (store.get ⟨i.toNat, by omega⟩)) ∧
    (∀ h : -(store.length : Int) ≤ i ∧ i < 0,
       deref (.list store) (.int i)
         = .ok (store.get ⟨((store.length : Int) + i).toNat, by omega⟩)) ∧
    (i < -(store.length : Int) ∨ (store.length : Int) ≤ i →
       deref (.list store) (.int i) = .error .indexError) := by
  refine ⟨fun h => ?_, fun h => ?_, fun h => ?_⟩
  · exact seqIdx_in_range store i h
  · exact seqIdx_wrap store i h
  · exact seqIdx_oob store i h

theorem resolve_spec_witness :
    deref (.list [Cell.int 7, Cell.int 9]) (Cell.int 1) = .ok (Cell.int 9) ∧
    deref (.list [Cell.int 7, Cell.int 9]) (Cell.int 5) = .error .indexError := by
  constructor
  · have h := (resolve_spec [Cell.int 7, Cell.int 9] 1).1 (by constructor <;> norm_num)
    simpa using h
  · exact (resolve_spec [Cell.int 7, Cell.int 9] 5).2.2 (by right; norm_num)

/-- C2. counterexample: a negative index in `[-len, 0)` does *not* fail —
Python list indexing wraps around, so `resolve([7], -1)` silently returns
the last element instead of raising. -/
theorem resolve_negative_cex :
    deref (.list [Cell.int 7]) (Cell.int (-1)) = .ok (Cell.int 7) := by rfl

/-- C1. counterexample: in `cexRouteData1` the metadata record holds
`distance` as the raw literal `0`, yet the decoded metadata does *not*
contain `distance` at all — the field is dropped, not kept as the
literal `0`. -/
theorem metadata_zero_field_cex :
    dGet [("distance", Cell.int 0), ("title", Cell.int 4)] "distance"
      = some (Cell.int 0) ∧
    extract_route_info cexData1 = .ok
      { points := [{ lat := Cell.int 40, lng := Cell.int (-105), ele := Cell.int 1600 }]
        metadata := [("title", Cell.str "Zero Loop")]
        name := Cell.str "Zero Loop" } := ⟨rfl, rfl⟩

/-- C1. (amended).  For every recognized field key present in the dict
metadata record: if the raw value is an integer (or `bool`) strictly
greater than zero, one `resolve` yields the value of the field in the output
metadata; otherwise the raw value is never dereferenced and the field is
*omitted* from the output metadata — in particular a raw value of `0`
does not appear in the output at all. -/
theorem metadata_field_policy (rd : Cell) (kvs md : List (String × Cell))
    (f : String) (hf : f ∈ fields)
    (h : buildMetadata rd (.dict kvs) = .ok md) :
    (dGet kvs f = none → dGet md f = none) ∧
    (∀ raw, dGet kvs f = some raw →
      (isPosInt raw = true → ∃ v, deref rd raw = .ok v ∧ dGet md f = some v) ∧
      (isPosInt raw = false → dGet md f = none)) :=
  metaLoop_mem_spec rd kvs fields [] md f hf (by decide) rfl h

theorem metadata_field_policy_witness :
    buildMetadata (Cell.list [Cell.null, Cell.str "X"])
        (Cell.dict [("distance", Cell.int 0), ("title", Cell.int 1)])
      = .ok [("title", Cell.str "X")] ∧
    dGet [("title", Cell.str "X")] "distance" = none ∧
    dGet [("title", Cell.str "X")] "title" = some (Cell.str "X") := by
  refine ⟨rfl, ?_, ?_⟩
  · exact ((metadata_field_policy (Cell.list [Cell.null, Cell.str "X"])
      [("distance", Cell.int 0), ("title", Cell.int 1)] [("title", Cell.str "X")]
      "distance" (by decide) rfl).2 (Cell.int 0) rfl).2 rfl
  · obtain ⟨v, hv1, hv2⟩ := ((metadata_field_policy (Cell.list [Cell.null, Cell.str "X"])
      [("distance", Cell.int 0), ("title", Cell.int 1)] [("title", Cell.str "X")]
      "title" (by decide) rfl).2 (Cell.int 1) rfl).1 rfl
    have hv : (Except.ok (Cell.str "X") : Except Err Cell) = Except.ok v := by
      rw [← hv1] ; rfl
    rw [hv2]
    injection hv with hv
    rw [hv]

/-- C9..  A raw metadata value `True` passes the
`isinstance(idx, int) and idx > 0` test (Python `bool` is an `int` and
`True > 0`), so the field is dereferenced at store index 1; a raw value
`False` fails the test and the field is absent from the output metadata. -/
theorem bool_pointer_metadata (store : List Cell) (kvs md : List (String × Cell))
    (f : String) (hf : f ∈ fields)
    (h : buildMetadata (.list store) (.dict kvs) = .ok md) :
    (∀ (hlen : 2 ≤ store.length), dGet kvs f = some (.bool true) →
       dGet md f = some (store.get ⟨1, by omega⟩)) ∧
    (dGet kvs f = some (.bool false) → dGet md f = none) := by
  have hspec := metaLoop_mem_spec (.list store) kvs fields [] md f hf (by decide) rfl h
  constructor
  · intro hlen htrue
    obtain ⟨v, hv1, hv2⟩ := ((hspec.2 (Cell.bool true) htrue).1 rfl)
    have hd : deref (Cell.list store) (Cell.bool true) = seqIdx store 1 := rfl
    rw [hd, seqIdx_in_range store 1 ⟨by omega, by omega⟩] at hv1
    rw [hv2]
    injection hv1 with hv1
    rw [← hv1]
    rfl
  · intro hfalse
    exact (hspec.2 (Cell.bool false) hfalse).2 rfl

/-- C3. counterexample: in `cexRouteData3` the single point record
resolves to a *4*-element reference list, yet the decode succeeds (using
the first three references and silently ignoring the fourth) instead of
failing with a StructureError. -/
theorem point_refs_over_cex :
    deref (.list cexRouteData3) (.int 3)
      = .ok (.list [Cell.int 4, Cell.int 5, Cell.int 6, Cell.int 0]) ∧
    extract_route_info cexData3 = .ok
      { points := [{ lat := Cell.int 40, lng := Cell.int (-105), ele := Cell.int 1600 }]
        metadata := []
        name := Cell.str "Route Unknown" } := ⟨rfl, rfl⟩

/-- C3. (amended).  A point record whose resolved reference list has
*fewer* than 3 elements makes the decode of that point fail with a
StructureError (`IndexError`), and a failing point aborts the whole
point-list resolution (no point is ever skipped); but a reference list
with *more* than 3 elements is accepted — the first three references are
used and the rest are silently ignored. -/
theorem point_refs_arity (rd pIdx : Cell) (refs pis : List Cell)
    (pts : List RoutePoint) :
    (deref rd pIdx = .ok (.list refs) → refs.length < 3 →
       ∃ e, extractPoint rd pIdx = .error e) ∧
    (∀ a b c rest la lb lc, refs = a :: b :: c :: rest →
       deref rd pIdx = .ok (.list refs) →
       deref rd a = .ok la → deref rd b = .ok lb → deref rd c = .ok lc →
       extractPoint rd pIdx = .ok { lat := la, lng := lb, ele := lc }) ∧
    (extractPoints rd pis = .ok pts → ∀ pi ∈ pis, ∃ p, extractPoint rd pi = .ok p) := by
  refine ⟨?_, ?_, ?_⟩
  · intro h1 h2
    rcases refs with _ | ⟨a, _ | ⟨b, _ | ⟨c, rest⟩⟩⟩
    · exact ⟨.indexError, by simp only [extractPoint, h1, ok_bind] ; rfl⟩
    · simp only [extractPoint, h1, ok_bind]
      have e0 : pyGetItem (Cell.list [a]) (Cell.int 0) = .ok a := seqIdx_zero a []
      rw [e0]
      simp only [ok_bind]
      cases hla : deref rd a with
      | error e => exact ⟨e, rfl⟩
      | ok la => exact ⟨.indexError, rfl⟩
    · simp only [extractPoint, h1, ok_bind]
      have e0 : pyGetItem (Cell.list [a, b]) (Cell.int 0) = .ok a := seqIdx_zero a [b]
      rw [e0]
      simp only [ok_bind]
      cases hla : deref rd a with
      | error e => exact ⟨e, rfl⟩
      | ok la =>
        simp only [ok_bind]
        have e1 : pyGetItem (Cell.list [a, b]) (Cell.int 1) = .ok b := seqIdx_one a b []
        rw [e1]
        simp only [ok_bind]
        cases hlb : deref rd b with
        | error e => exact ⟨e, rfl⟩
        | ok lb => exact ⟨.indexError, rfl⟩
    · simp only [List.length_cons] at h2
      omega
  · intro a b c rest la lb lc hrefs h1 ha hb hc
    subst hrefs
    simp only [extractPoint, h1, ok_bind]
    have e0 : pyGetItem (Cell.list (a :: b :: c :: rest)) (Cell.int 0) = .ok a :=
      seqIdx_zero a (b :: c :: rest)
    have e1 : pyGetItem (Cell.list (a :: b :: c :: rest)) (Cell.int 1) = .ok b :=
      seqIdx_one a b (c :: rest)
    have e2 : pyGetItem (Cell.list (a :: b :: c :: rest)) (Cell.int 2) = .ok c :=
      seqIdx_two a b c rest
    rw [e0]
    simp only [ok_bind]
    rw [ha]
    simp only [ok_bind]
    rw [e1]
    simp only [ok_bind]
    rw [hb]
    simp only [ok_bind]
    rw [e2]
    simp only [ok_bind]
    rw [hc]
    simp only [ok_bind]
    rfl
  · intro h
    exact (extractPoints_ok_spec rd pis pts h).2.2

theorem point_refs_arity_witness :
    (∃ e, extractPoint (Cell.list [Cell.list [Cell.int 1], Cell.int 5])
       (Cell.int 0) = .error e) ∧
    extractPoint (Cell.list cexRouteData3) (Cell.int 3)
      = .ok { lat := Cell.int 40, lng := Cell.int (-105), ele := Cell.int 1600 } := by
  constructor
  · exact (point_refs_arity (Cell.list [Cell.list [Cell.int 1], Cell.int 5])
      (Cell.int 0) [Cell.int 1] [] []).1 rfl (by norm_num)
  · exact (point_refs_arity (Cell.list cexRouteData3) (Cell.int 3)
      [Cell.int 4, Cell.int 5, Cell.int 6, Cell.int 0] [] []).2.1
      (Cell.int 4) (Cell.int 5) (Cell.int 6) [Cell.int 0]
      (Cell.int 40) (Cell.int (-105)) (Cell.int 1600) rfl rfl rfl rfl rfl

/-- C4..  For a successful decode followed by a successful build: the
output has exactly one point per point-index-list entry, the `N`th output
point is the result of resolving the `N`th entry (never permuted,
deduplicated or reversed), and the built document holds one track with one
segment emitting those points in the same order. -/
theorem decode_point_order
    (data routeData routeInfoCell latLngIdx routeMetaIdx routeMetaStruct piCell : Cell)
    (md : List (String × Cell)) (pis : List Cell) (info : RouteInfo) (gpx : GPX)
    (h : extract_route_info data = .ok info)
    (h1 : locateRouteData data = .ok routeData)
    (h2 : pyGetItem routeData (.int 0) = .ok routeInfoCell)
    (h3 : pyGetItem routeInfoCell (.str "latLngData") = .ok latLngIdx)
    (h4 : pyGetItem routeInfoCell (.str "route") = .ok routeMetaIdx)
    (h5 : deref routeData routeMetaIdx = .ok routeMetaStruct)
    (h6 : buildMetadata routeData routeMetaStruct = .ok md)
    (h7 : deref routeData latLngIdx = .ok piCell)
    (h8 : pyIter piCell = .ok pis)
    (hb : build_gpx info.points info.name info.metadata = .ok gpx) :
    info.points.length = pis.length ∧
    (∀ (n : Nat) (pi : Cell), pis[n]? = some pi →
       ∃ p, info.points[n]? = some p ∧ extractPoint routeData pi = .ok p) ∧
    gpx.tracks = [{ name := info.name
                    segments := [{ points := info.points.map toTrackPoint }] }] := by
  simp only [extract_route_info, h1, h2, h3, h4, h5, h6, h7, h8, ok_bind] at h
  cases hep : extractPoints routeData pis with
  | error e => rw [hep] at h ; simp at h
  | ok pts =>
    rw [hep] at h
    simp only [ok_bind, pure_eq_ok, Except.ok.injEq] at h
    obtain ⟨L, D, E, _, _, _, hg⟩ :=
      build_gpx_parts info.points info.name info.metadata gpx hb
    obtain ⟨hl, hidx, _⟩ := extractPoints_ok_spec routeData pis pts hep
    have hpts : info.points = pts := by rw [← h]
    refine ⟨by rw [hpts] ; exact hl, ?_, ?_⟩
    · intro n pi hn
      rw [hpts]
      exact hidx n pi hn
    · rw [hg]

theorem decode_point_order_witness :
    exInfo.points.length = ([Cell.int 3, Cell.int 4] : List Cell).length ∧
    (∀ (n : Nat) (pi : Cell), ([Cell.int 3, Cell.int 4] : List Cell)[n]? = some pi →
       ∃ p, exInfo.points[n]? = some p ∧
         extractPoint (Cell.list exRouteData) pi = .ok p) ∧
    exGpx.tracks = [{ name := exInfo.name
                      segments := [{ points := exInfo.points.map toTrackPoint }] }] :=
  decode_point_order exData (Cell.list exRouteData)
    (Cell.dict [("latLngData", Cell.int 1), ("route", Cell.int 2)])
    (Cell.int 1) (Cell.int 2)
    (Cell.dict [("id", Cell.int 5), ("title", Cell.int 6), ("distance", Cell.int 7),
                ("elevation", Cell.int 8), ("geo_city", Cell.int 9)])
    (Cell.list [Cell.int 3, Cell.int 4])
    exInfo.metadata [Cell.int 3, Cell.int 4] exInfo exGpx
    rfl rfl rfl rfl rfl rfl rfl rfl rfl rfl

theorem bool_pointer_metadata_witness :
    buildMetadata (Cell.list [Cell.int 99, Cell.str "Hello"])
        (Cell.dict [("title", Cell.bool true), ("id", Cell.bool false)])
      = .ok [("title", Cell.str "Hello")] ∧
    dGet [("title", Cell.str "Hello")] "title" = some (Cell.str "Hello") ∧
    dGet [("title", Cell.str "Hello")] "id" = none := by
  refine ⟨rfl, ?_, ?_⟩
  · have h := (bool_pointer_metadata [Cell.int 99, Cell.str "Hello"]
      [("title", Cell.bool true), ("id", Cell.bool false)] [("title", Cell.str "Hello")]
      "title" (by decide) rfl).1 (by norm_num) rfl
    simpa using h
  · exact (bool_pointer_metadata [Cell.int 99, Cell.str "Hello"]
      [("title", Cell.bool true), ("id", Cell.bool false)] [("title", Cell.str "Hello")]
      "id" (by decide) rfl).2 rfl

/-- C5..  The derived route name is the metadata title whenever it is a
present, non-empty string; otherwise (absent or empty title) it is
`"Route "` followed by the id when an id is present, and `"Route Unknown"`
when neither exists. -/
theorem name_derivation (md : List (String × Cell)) :
    (∀ s : String, dGet md "title" = some (.str s) → s ≠ "" →
       routeName md = .str s) ∧
    ((dGet md "title" = none ∨ dGet md "title" = some (.str "")) →
       (∀ i : Int, dGet md "id" = some (.int i) →
          routeName md = .str ("Route " ++ toString i)) ∧
       (dGet md "id" = none → routeName md = .str "Route Unknown")) := by
  constructor
  · intro s hs hne
    rw [routeName, hs]
    have ht : pyTruthy (Cell.str s) = true := by simp [pyTruthy, hne]
    simp [ht]
  · intro htitle
    have hfalse : pyTruthy ((dGet md "title").getD .null) = false := by
      rcases htitle with h | h <;> rw [h] <;> rfl
    constructor
    · intro i hi
      rw [routeName, hfalse]
      simp only [Bool.false_eq_true, if_false, hi, Option.getD_some, pyStr]
    · intro hid
      rw [routeName, hfalse]
      simp only [Bool.false_eq_true, if_false, hid, Option.getD_none, pyStr]
      rfl

theorem name_derivation_witness :
    routeName [("title", Cell.str "Sunset Loop")] = .str "Sunset Loop" ∧
    routeName [("id", Cell.int 8771)] = .str "Route 8771" ∧
    routeName [] = .str "Route Unknown" := by
  refine ⟨?_, ?_, ?_⟩
  · exact (name_derivation [("title", Cell.str "Sunset Loop")]).1
      "Sunset Loop" rfl (by decide)
  · have h := ((name_derivation [("id", Cell.int 8771)]).2 (Or.inl rfl)).1 8771 rfl
    rw [h]
    rfl
  · exact ((name_derivation []).2 (Or.inl rfl)).2 rfl

set_option maxRecDepth 4000 in
/-- Validation of the binary64 layer at values where rounding the exact
rational would differ from what CPython prints: the double nearest
`500/100000` lies above `0.005`, so `.2f` shows `0.01`; and the double
nearest `(100*(2^54+1))/100` collapses to `2^54` before `round` sees it. -/
theorem binary64_rounding_checks :
    fmt2f 500 100000 = "0.01" ∧ pyRound (100 * (2 ^ 54 + 1)) 100 = 2 ^ 54 := by
  exact ⟨by decide, by decide⟩

/-- C6.  The description of a successful build is the `"; "`-join of, in this
fixed order, the location part, the distance part and the elevation part;
each part appears only when its metadata value is present (and truthy);
a present nonzero integer distance `d` (within the binary64 range — beyond
it CPython raises an uncaught OverflowError) yields
`"Distance: {d/100000:.2f} km"` where the quotient is the binary64 double,
and a present nonzero in-range integer elevation `e` yields
`"Elevation gain: {round(e/100)} m"` likewise via the double; in
particular distance 250000 displays as `2.50` and elevation 12345 as
`123`. -/
theorem description_assembly (pts : List RoutePoint) (nm : Cell)
    (md : List (String × Cell)) (gpx : GPX)
    (h : build_gpx pts nm md = .ok gpx) :
    ∃ L D E, locPart md = .ok L ∧ distPart md = .ok D ∧ elePart md = .ok E ∧
      gpx.description = String.intercalate "; " (L ++ D ++ E) ∧
      (dGet md "geo_city" = none → L = []) ∧
      (L ≠ [] → ∃ c, dGet md "geo_city" = some c ∧ pyTruthy c = true) ∧
      (dGet md "distance" = none → D = []) ∧
      (D ≠ [] → ∃ c, dGet md "distance" = some c ∧ pyTruthy c = true) ∧
      (∀ d : Int, dGet md "distance" = some (.int d) → d ≠ 0 →
         (∃ m q, roundToDbl d 100000 = .finite m q) →
         D = ["Distance: " ++ fmt2f d 100000 ++ " km"]) ∧
      (dGet md "elevation" = none → E = []) ∧
      (E ≠ [] → ∃ c, dGet md "elevation" = some c ∧ pyTruthy c = true) ∧
      (∀ e : Int, dGet md "elevation" = some (.int e) → e ≠ 0 →
         (∃ m q, roundToDbl e 100 = .finite m q) →
         E = ["Elevation gain: " ++ toString (pyRound e 100) ++ " m"]) ∧
      fmt2f 250000 100000 = "2.50" ∧
      toString (pyRound 12345 100) = "123" := by
  obtain ⟨L, D, E, hL, hD, hE, hg⟩ := build_gpx_parts pts nm md gpx h
  refine ⟨L, D, E, hL, hD, hE, by rw [hg], ?_, ?_, ?_, ?_, ?_, ?_, ?_, ?_, rfl, rfl⟩
  · intro hc
    exact Except.ok.inj (hL.symm.trans (locPart_none md hc))
  · exact locPart_only_if md L hL
  · intro hc
    exact Except.ok.inj (hD.symm.trans (distPart_none md hc))
  · exact distPart_only_if md D hD
  · intro d hd hdne _hfin
    exact Except.ok.inj (hD.symm.trans (distPart_int md d hd hdne))
  · intro hc
    exact Except.ok.inj (hE.symm.trans (elePart_none md hc))
  · exact elePart_only_if md E hE
  · intro e he hene _hfin
    exact Except.ok.inj (hE.symm.trans (elePart_int md e he hene))

theorem description_assembly_witness :
    build_gpx [] (Cell.str "T") exMd6 = .ok exGpx6 ∧
    exGpx6.description
      = "Location: Boulder; Distance: 2.50 km; Elevation gain: 123 m" := by
  refine ⟨rfl, ?_⟩
  obtain ⟨L, D, E, hL, hD, hE, hdesc, _⟩ :=
    description_assembly [] (Cell.str "T") exMd6 exGpx6 rfl
  have hL2 : L = ["Location: Boulder"] :=
    Except.ok.inj (hL.symm.trans (rfl : locPart exMd6 = .ok ["Location: Boulder"]))
  have hD2 : D = ["Distance: 2.50 km"] :=
    Except.ok.inj (hD.symm.trans (rfl : distPart exMd6 = .ok ["Distance: 2.50 km"]))
  have hE2 : E = ["Elevation gain: 123 m"] :=
    Except.ok.inj (hE.symm.trans (rfl : elePart exMd6 = .ok ["Elevation gain: 123 m"]))
  rw [hdesc, hL2, hD2, hE2]
  rfl

/-- C7..  When the decode succeeds but yields zero points, the run fails
with the distinct diagnostic `"Error: No track points found in route data"`
(exit status 1) and the output file is never written; the track builder is
never invoked (in `runMain` the empty-points check precedes the build). -/
theorem empty_route_failure (data : Cell) (info : RouteInfo) (out : String)
    (h : extract_route_info data = .ok info) (hp : info.points = []) :
    runMain (.success data) out
      = .failure "Error: No track points found in route data" ∧
    ∀ f g, runMain (.success data) out ≠ .written f g := by
  have hrun : runMain (.success data) out
      = .failure "Error: No track points found in route data" := by
    simp [runMain, h, hp]
  refine ⟨hrun, fun f g hw => ?_⟩
  rw [hrun] at hw
  exact RunResult.noConfusion hw

theorem empty_route_failure_witness :
    extract_route_info emptyData
      = .ok { points := [], metadata := [], name := Cell.str "Route Unknown" } ∧
    runMain (.success emptyData) "out.gpx"
      = .failure "Error: No track points found in route data" := by
  refine ⟨rfl, ?_⟩
  exact (empty_route_failure emptyData
    { points := [], metadata := [], name := Cell.str "Route Unknown" }
    "out.gpx" rfl rfl).1

/-- C8..  Decoding is a deterministic pure function of the input store
(the embedding is stateless and the store, an immutable value, is never
modified): two decodes of the same store yield identical points, identical
metadata and an identical name. -/
theorem decode_deterministic (data : Cell) (i1 i2 : RouteInfo)
    (h1 : extract_route_info data = .ok i1)
    (h2 : extract_route_info data = .ok i2) :
    i1.points = i2.points ∧ i1.metadata = i2.metadata ∧ i1.name = i2.name := by
  rw [h1] at h2
  injection h2 with h2
  rw [h2]
  exact ⟨rfl, rfl, rfl⟩

theorem decode_deterministic_witness :
    exInfo.points = exInfo.points ∧ exInfo.metadata = exInfo.metadata ∧
    exInfo.name = exInfo.name :=
  decode_deterministic exData exInfo exInfo rfl rfl

/-- C10..  The output file is written exactly when fetch, decode, the
non-empty-points check and the build all succeed (in that order); every
fetch, network or structure/parse error path yields a stderr diagnostic and
exit status 1 with no file written. -/
theorem output_file_gating (fetch : FetchOutcome) (out : String) :
    (∀ f gpx, runMain fetch out = .written f gpx →
       f = out ∧ ∃ data info, fetch = .success data ∧
         extract_route_info data = .ok info ∧ info.points ≠ [] ∧
         build_gpx info.points info.name info.metadata = .ok gpx) ∧
    ((fetch = .httpError ∨ fetch = .requestError) →
       ∃ m, runMain fetch out = .failure m) ∧
    (∀ data e, fetch = .success data → extract_route_info data = .error e →
       runMain fetch out = .failure "Error parsing route data") := by
  refine ⟨?_, ?_, ?_⟩
  · intro f gpx hw
    cases fetch with
    | httpError => simp [runMain] at hw
    | requestError => simp [runMain] at hw
    | success data =>
      simp only [runMain] at hw
      cases hex : extract_route_info data with
      | error e => simp [hex] at hw
      | ok info =>
        rw [hex] at hw
        simp only at hw
        cases hempty : info.points.isEmpty with
        | true => simp [hempty] at hw
        | false =>
          simp only [hempty, Bool.false_eq_true, if_false] at hw
          cases hb : build_gpx info.points info.name info.metadata with
          | error e => simp [hb] at hw
          | ok g =>
            rw [hb] at hw
            simp only at hw
            injection hw with hw1 hw2
            refine ⟨hw1.symm, data, info, rfl, hex, ?_, ?_⟩
            · intro hnil
              rw [hnil] at hempty
              simp at hempty
            · rw [← hw2]
              exact hb
  · rintro (rfl | rfl)
    · exact ⟨"Error fetching route", rfl⟩
    · exact ⟨"Network error", rfl⟩
  · intro data e hf hex
    subst hf
    simp [runMain, hex]

theorem output_file_gating_witness :
    ("8771.gpx" = "8771.gpx" ∧ ∃ data info,
       FetchOutcome.success exData = FetchOutcome.success data ∧
       extract_route_info data = .ok info ∧ info.points ≠ [] ∧
       build_gpx info.points info.name info.metadata = .ok exGpx) ∧
    (∃ m, runMain FetchOutcome.httpError "8771.gpx" = .failure m) := by
  constructor
  · exact (output_file_gating (.success exData) "8771.gpx").1 "8771.gpx" exGpx rfl
  · exact (output_file_gating .httpError "8771.gpx").2.1 (Or.inl rfl)

end Btroute
